import Mathlib

/-!
# av-scanner — shallow embedding and verification

Shallow embedding of the scan-coordination core of the `rophy/av-scanner`
repository (Go implementation under `internal/`), together with proofs and
refutations of the frozen specification claims.

Conventions:
* Go `string`-typed enumerations (`drivers.ScanStatus`) are embedded as `String`
  with the literal values `"clean"`, `"infected"`, `"error"` used by the source.
* Time is measured in milliseconds as `Nat` (the source uses `time.Duration`
  with millisecond-granularity constants).
* Fallible Go calls are embedded as `Except`/`Option`; a Go `panic` is the
  `none` value of an `Option`-returning embedding.
* External effects (the on-demand child process, the shared cache observed by
  the polling loop, the filesystem) enter the embedded orchestrator as explicit
  oracle inputs, so each embedded function is a pure function of its inputs.
-/

/-! ## Detection records and the shared detection cache

From `internal/cache/cache.go` (the `cache` package): `Detection`,
`DetectionCache`, `Add`, `Get`, `Peek`, `Stop`, `cleanupLoop`, `cleanup`.
The Go map `detections map[string]*Detection` is embedded as an association
list in which `Add` replaces any entry with the same key, preserving the
one-value-per-key semantics of a Go map.
-/

/-- `cache.Detection`: a normalized detection record.  `Timestamp` is in
milliseconds; the Go zero value of `time.Time` is embedded as `0`. -/
structure Detection where
  FilePath : String
  Status : String
  Signature : String
  Raw : String
  Timestamp : Nat
deriving DecidableEq

/-- `cache.DefaultTTL = 60 * time.Second`, in milliseconds. -/
def DefaultTTL : Nat := 60000

/-- `cache.DefaultCleanupInterval = 30 * time.Second`, in milliseconds. -/
def DefaultCleanupInterval : Nat := 30000

/-- `cache.DetectionCache`: the map of detections, the configured `ttl`, and
the state of the `stopCh` channel (`stopClosed = true` once `close(stopCh)`
has run). -/
structure CacheState where
  detections : List (String × Detection)
  ttl : Nat
  stopClosed : Bool
deriving DecidableEq

/-- `cache.NewDetectionCache(ttl)`: zero TTL falls back to `DefaultTTL`. -/
def NewDetectionCache (ttl : Nat) : CacheState :=
  { detections := [],
    ttl := if ttl = 0 then DefaultTTL else ttl,
    stopClosed := false }

/-- `DetectionCache.Add(absPath, detection)`: stamps `detection.Timestamp = now`
and stores it, overwriting any existing entry for the same path (Go map
store). -/
def cacheAdd (now : Nat) (absPath : String) (det : Detection) (c : CacheState) :
    CacheState :=
  { c with detections :=
      (absPath, { det with Timestamp := now }) ::
        c.detections.filter (fun e => e.1 != absPath) }

/-- `DetectionCache.Get(absPath)`: retrieves and removes the entry. -/
def cacheGet (absPath : String) (c : CacheState) : Option Detection × CacheState :=
  match c.detections.find? (fun e => e.1 == absPath) with
  | some e =>
      (some e.2,
       { c with detections := c.detections.filter (fun e2 => e2.1 != absPath) })
  | none => (none, c)

/-- `DetectionCache.Peek(absPath)`: retrieves without removing. -/
def cachePeek (absPath : String) (c : CacheState) : Option Detection :=
  (c.detections.find? (fun e => e.1 == absPath)).map (fun e => e.2)

/-- `DetectionCache.Stop()`, whose body is `close(c.stopCh)`.  In Go, `close`
on an already-closed channel panics; the panic is embedded as `none`. -/
def cacheStop (c : CacheState) : Option CacheState :=
  if c.stopClosed then none else some { c with stopClosed := true }

/-- `DetectionCache.cleanup()`: removes every entry with
`now.Sub(detection.Timestamp) > c.ttl`. -/
def cacheCleanup (now : Nat) (c : CacheState) : CacheState :=
  { c with detections :=
      c.detections.filter (fun e => decide (now - e.2.Timestamp ≤ c.ttl)) }

/-- The instant (ms since cache creation) of the `k`-th firing of the
`cleanupLoop` ticker, which is created with the fixed period
`DefaultCleanupInterval` and first fires one full period after creation. -/
def sweepTime (k : Nat) : Nat := (k + 1) * DefaultCleanupInterval

/-! ## The scan orchestrator (`internal/scanner/scanner.go`, `Scanner.Scan`)

`Scan` first calls `driver.ManualScan`; on a decisive result it adopts it,
otherwise it polls `detectionCache.Get(absPath)` every `retryDelay = 20ms`
while `waited < maxWait`, where
`maxWait = RTSCacheBaseDelay + (size/1024/1024)*RTSCacheDelayPerMB` (ms).
The successive observations of the shared cache made by the polling loop are
embedded as an oracle `probe : Nat → Option Detection` giving the result of the
`k`-th `Get` call.  `ScanOutcome.deletes` counts the `s.deleteFile` attempts on
the materialized file and `ScanOutcome.probes` counts the `Get` calls, so the
claims about deletion and about not touching the cache are statable.
-/

/-- `drivers.ScanResult`, restricted to the fields `Scanner.Scan` consults
(`Status`, `Signature`). -/
structure ManualResult where
  Status : String
  Signature : String
deriving DecidableEq

/-- The driver configuration fields used by the RTS wait
(`config.DriverConfig.RTSCacheBaseDelay/RTSCacheDelayPerMB`, in ms;
defaults `500` and `10` from `config.Load`). -/
structure DriverCfg where
  RTSCacheBaseDelay : Nat
  RTSCacheDelayPerMB : Nat
deriving DecidableEq

/-- `retryDelay := 20 * time.Millisecond` in `Scanner.Scan`. -/
def retryDelay : Nat := 20

/-- `maxWait := baseDelay + time.Duration(size/1024/1024)*delayPerMB`
(all in ms; `size` is the upload's byte size, and Go's integer division
`size/1024/1024` is the floor of size in MiB). -/
def maxWaitFor (cfg : DriverCfg) (size : Nat) : Nat :=
  cfg.RTSCacheBaseDelay + size / 1024 / 1024 * cfg.RTSCacheDelayPerMB

/-- Number of iterations of the wait loop
`for waited < maxWait { probe; sleep(retryDelay); waited += retryDelay }`:
the body runs for each `waited ∈ {0, 20, 40, …}` with `waited < maxWait`,
i.e. `⌈maxWait / retryDelay⌉` times. -/
def pollIterations (maxWait : Nat) : Nat :=
  (maxWait + retryDelay - 1) / retryDelay

/-- The RTS wait loop of `Scanner.Scan`, by recursion on the remaining
iteration count (`i` is the index of the next `Get` call; the loop breaks on
the first cache hit whose `Status` is `"infected"`, otherwise sleeps and
retries).  Returns the adopted detection (if any) and the number of `Get`
calls performed. -/
def rtsLoopAux (probe : Nat → Option Detection) (i : Nat) :
    Nat → Option Detection × Nat
  | 0 => (none, i)
  | fuel + 1 =>
    match probe i with
    | some det =>
        if det.Status = "infected" then (some det, i + 1)
        else rtsLoopAux probe (i + 1) fuel
    | none => rtsLoopAux probe (i + 1) fuel

/-- The RTS wait loop with the budget `maxWait`, starting from `waited = 0`. -/
def rtsLoop (probe : Nat → Option Detection) (maxWait : Nat) :
    Option Detection × Nat :=
  rtsLoopAux probe 0 (pollIterations maxWait)

/-- The decisive-verdict test of `Scanner.Scan`:
`err == nil && (result.Status == StatusClean || result.Status == StatusInfected)`. -/
def manualDecisive : Except Unit ManualResult → Option ManualResult
  | Except.ok r =>
      if r.Status = "clean" ∨ r.Status = "infected" then some r else none
  | Except.error _ => none

/-- The error message returned by `Scanner.Scan` when the wait budget is
exhausted. -/
def scanFailMsg : String :=
  "scan failed: file not accessible and no RTS detection found"

/-- The oracle inputs of one `Scanner.Scan` call. -/
structure ScanEnv where
  manual : Except Unit ManualResult
  probe : Nat → Option Detection
  cfg : DriverCfg
  size : Nat

deriving instance DecidableEq for Except

/-- The observable outcome of one `Scanner.Scan` call: the returned value
(verdict and signature, or the error), the number of `s.deleteFile` attempts
made on the materialized file, and the number of `detectionCache.Get` calls
made. -/
structure ScanOutcome where
  result : Except String (String × String)
  deletes : Nat
  probes : Nat
deriving DecidableEq

/-- `Scanner.Scan`: manual scan, decisive fast path, RTS wait fallback,
error return on exhaustion (which precedes the `s.deleteFile` call at the
bottom of the function, so no deletion is attempted on that path), and
deletion before the successful return. -/
def Scan (env : ScanEnv) : ScanOutcome :=
  match manualDecisive env.manual with
  | some r => { result := Except.ok (r.Status, r.Signature), deletes := 1, probes := 0 }
  | none =>
    let w := rtsLoop env.probe (maxWaitFor env.cfg env.size)
    match w.1 with
    | some det =>
        { result := Except.ok ("infected", det.Signature), deletes := 1, probes := w.2 }
    | none =>
        { result := Except.error scanFailMsg, deletes := 0, probes := w.2 }

/-- An observation of the cache that the wait loop adopts: a present entry
whose status is `"infected"`. -/
def InfectedHit (o : Option Detection) : Prop :=
  ∃ d, o = some d ∧ d.Status = "infected"

/-! ## Generic list helpers used by the regex embeddings -/

/-- First success of `f` over a candidate list (backtracking order). -/
def firstSome {α β : Type} (f : α → Option β) : List α → Option β
  | [] => none
  | a :: t =>
    match f a with
    | some b => some b
    | none => firstSome f t

/-- All splits `s = a ++ b`, with `a` of ascending length. -/
def listSplits : List Char → List (List Char × List Char)
  | [] => [([], [])]
  | c :: t => ([], c :: t) :: (listSplits t).map (fun p => (c :: p.1, p.2))

/-- `[n, n-1, …, 1]`: candidate lengths for a greedy `\s+`, longest first. -/
def countdown : Nat → List Nat
  | 0 => []
  | n + 1 => (n + 1) :: countdown n

/-- Go `strings.Contains(s, sub)` on character lists. -/
def listContainsSub (s sub : List Char) : Bool :=
  if sub.isPrefixOf s then true
  else
    match s with
    | [] => false
    | _ :: t => listContainsSub t sub

/-- The RE2 character class `\s`, i.e. `[\t\n\f\r ]`. -/
def isReSpace (c : Char) : Bool :=
  c = ' ' || c = '\t' || c = '\n' || c = '\r' || c = '\x0c'

/-- `unicode.IsSpace` as used by Go `strings.TrimSpace`, restricted to ASCII
(it additionally accepts `\v`; the non-ASCII space code points are not
reachable from the claims' inputs and are omitted). -/
def isGoSpace (c : Char) : Bool :=
  isReSpace c || c = '\x0b'

/-- Go `strings.TrimSpace` on character lists (ASCII fragment). -/
def goTrimSpaceL (s : List Char) : List Char :=
  ((s.dropWhile isGoSpace).reverse.dropWhile isGoSpace).reverse

/-! ## The ClamAV log-line regex (`internal/drivers/clamav.go`)

The pattern of `clamavFoundRegex` is `(.+):\s+(.+)\s+FOUND$` (clamav.go:20).

`FindStringSubmatch` semantics for this pattern: the match starts at the
leftmost position admitting a match; submatch extents follow backtracking
priority, so `(.+)` (which cannot cross a newline) is greedy, longest first,
then `\s+` greedy, then the second `(.+)` greedy, and `$` (no `(?m)` flag)
anchors at the very end of the text.  The nested `firstSome` enumerations
below realize exactly this priority order. -/

/-- Match `\s+FOUND` against the entire remainder `v` (the trailing
`\s+FOUND$` of the pattern): a non-empty whitespace run followed by the
literal, consuming all of `v`. -/
def clamavGapFound (v : List Char) : Bool :=
  let ws2 := v.takeWhile isReSpace
  decide (ws2 ≠ []) && decide (v.drop ws2.length = "FOUND".toList)

/-- Match `(.+)\s+FOUND$` against all of `u`, second group greedy
(longest first); returns the submatch pair on success. -/
def clamavTail2 (g1 : List Char) (u : List Char) :
    Option (List Char × List Char) :=
  firstSome
    (fun p =>
      if decide (p.1 ≠ []) && decide ('\n' ∉ p.1) && clamavGapFound p.2 then
        some (g1, p.1)
      else none)
    (listSplits u).reverse

/-- Match `\s+(.+)\s+FOUND$` against all of `t`: the first `\s+` is greedy,
longest first. -/
def clamavTail (g1 : List Char) (t : List Char) :
    Option (List Char × List Char) :=
  firstSome (fun k => clamavTail2 g1 (t.drop k))
    (countdown (t.takeWhile isReSpace).length)

/-- Match the whole pattern `(.+):\s+(.+)\s+FOUND$` starting at the head of
`s`: the first group is greedy, so the candidate prefixes before a `:` are
tried longest first. -/
def clamavMatchAt (s : List Char) : Option (List Char × List Char) :=
  firstSome
    (fun p =>
      match p.2 with
      | c :: t =>
        if c = ':' ∧ p.1 ≠ [] ∧ '\n' ∉ p.1 then clamavTail p.1 t
        else none
      | [] => none)
    (listSplits s).reverse

/-- `clamavFoundRegex.FindStringSubmatch`: leftmost match position, then the
greedy submatches; `none` when the line does not match. -/
def clamavFindMatch : List Char → Option (List Char × List Char)
  | [] => none
  | c :: t =>
    match clamavMatchAt (c :: t) with
    | some r => some r
    | none => clamavFindMatch t

/-- `ClamAVDriver.processLogLine` (clamav.go:85–100): on a `clamavFoundRegex`
match, builds the infected `cache.Detection` (which `d.cache.Add` then stores
under `filepath.Abs(matches[1])`); every other line is ignored.  The produced
record is returned; `Timestamp` is the Go zero value until `Add` stamps it. -/
def clamavProcessLogLine (line : String) : Option Detection :=
  match clamavFindMatch line.toList with
  | some r =>
      some { FilePath := String.mk r.1, Status := "infected",
             Signature := String.mk r.2, Raw := line, Timestamp := 0 }
  | none => none

/-! ## The ClamAV on-demand mapping (`ClamAVDriver.ManualScan`, clamav.go:161–223)

After the child process exits, `output := strings.TrimSpace(stdout)`; if
`clamavFoundRegex` matches `output` the status is infected with the captured
signature, otherwise the exit code maps `0 → clean`, `1 → infected`,
otherwise `error`. -/

/-- The status/signature computation at the end of `ClamAVDriver.ManualScan`
as a function of the process exit code and raw stdout. -/
def clamavManualScanStatus (exitCode : Int) (stdoutRaw : String) :
    String × String :=
  match clamavFindMatch (goTrimSpaceL stdoutRaw.toList) with
  | some r => ("infected", String.mk r.2)
  | none =>
    if exitCode = 0 then ("clean", "")
    else if exitCode = 1 then ("infected", "")
    else ("error", "")

/-! ## The Trend Micro log-line regex (`internal/drivers/trendmicro.go`)

The pattern of `tmVirusFoundRegex` is `\([^,]+,\s*([^)]+)\)\s*virus found:` (trendmicro.go:23).

The negated classes make most of this pattern deterministic: `[^,]+` followed
by the literal `,` is exactly the maximal run of non-comma characters, and
`[^)]+` followed by `\)` is the maximal run of non-`)` characters.  The only
backtracking point is between the greedy `\s*` and `[^)]+`: when the maximal
whitespace run leaves `[^)]+` nothing to match (the next character is `)` or
the input ends), the priority order hands the last whitespace character back
to the capture group. -/

/-- Match `\)\s*virus found:` at `r4`, returning the capture on success
(`FindStringSubmatch` imposes no right anchor, so trailing input after the
literal is ignored). -/
def tmCloseParen (cap : List Char) (r4 : List Char) : Option (List Char) :=
  match r4 with
  | c :: r5 =>
    if c = ')' ∧ ("virus found:".toList).isPrefixOf (r5.dropWhile isReSpace) then
      some cap
    else none
  | [] => none

/-- Match the whole pattern starting at the head of `s`. -/
def tmMatchAt (s : List Char) : Option (List Char) :=
  match s with
  | c0 :: rest =>
    if c0 = '(' then
      match rest.takeWhile (fun c => c != ','), rest.dropWhile (fun c => c != ',') with
      | _ :: _, _ :: r2 =>
        let ws := r2.takeWhile isReSpace
        let r3 := r2.dropWhile isReSpace
        match r3.takeWhile (fun c => c != ')'), ws.reverse with
        | [], wlast :: _ => tmCloseParen [wlast] r3
        | [], [] => none
        | b :: bs, _ => tmCloseParen (b :: bs) (r3.dropWhile (fun c => c != ')'))
      | _, _ => none
    else none
  | [] => none

/-- `tmVirusFoundRegex.FindStringSubmatch`: leftmost position whose match
attempt succeeds. -/
def tmFindCapture : List Char → Option (List Char)
  | [] => none
  | c :: t =>
    match tmMatchAt (c :: t) with
    | some r => some r
    | none => tmFindCapture t

/-- `TrendMicroDriver.processLogLine` (trendmicro.go:90–107): on a match,
`filePath := strings.TrimSpace(matches[1])` and the cached detection is
`{FilePath: filePath, Status: "infected", Signature: "virus", Raw: line}`
(stored by `d.cache.Add` under `filepath.Abs(filePath)`); other lines are
ignored. -/
def tmProcessLogLine (line : String) : Option Detection :=
  match tmFindCapture line.toList with
  | some cap =>
      some { FilePath := String.mk (goTrimSpaceL cap), Status := "infected",
             Signature := "virus", Raw := line, Timestamp := 0 }
  | none => none

/-! ## The Trend Micro on-demand mapping
(`TrendMicroDriver.parseManualScanOutput`, trendmicro.go:215–267)

The `json.Unmarshal` call is external library behaviour; the embedding takes
its outcome as an input: `some j` when stdout parsed into the result record,
`none` when parsing failed. -/

/-- One element of the `infectedFiles` array of `dsa_scan --json` output. -/
structure TMInfectedFile where
  fileName : String
  malwareName : String
deriving DecidableEq

/-- The JSON result record unmarshalled by `parseManualScanOutput`
(the fields the mapping consults). -/
structure TMScanJson where
  numOfFileScanned : Int
  numOfFileSkipped : Int
  numOfFileInfected : Int
  infectedFiles : List TMInfectedFile
deriving DecidableEq

/-- Go `strings.ToLower` (ASCII fragment) on a string. -/
def goToLower (s : String) : String :=
  String.mk (s.toList.map Char.toLower)

/-- The case-insensitive fallback test of `parseManualScanOutput`:
`strings.Contains(lowerOutput, "infected"|"virus"|"malware")`. -/
def tmFallbackInfected (output : String) : Bool :=
  listContainsSub (goToLower output).toList "infected".toList ||
  listContainsSub (goToLower output).toList "virus".toList ||
  listContainsSub (goToLower output).toList "malware".toList

/-- `TrendMicroDriver.parseManualScanOutput(output, exitCode)`, returning the
`(status, signature)` pair.  Faithful to the source: the infected branch
fires when `numOfFileInfected > 0 || len(infectedFiles) > 0`, and the
signature is the first entry's `malwareName` (empty when the array is
empty). -/
def parseManualScanOutput (json : Option TMScanJson) (output : String)
    (exitCode : Int) : String × String :=
  match json with
  | some j =>
    if j.numOfFileSkipped > 0 ∧ j.numOfFileScanned = 0 then ("error", "")
    else if j.numOfFileInfected > 0 ∨ j.infectedFiles.length > 0 then
      ("infected",
       match j.infectedFiles with
       | [] => ""
       | f :: _ => f.malwareName)
    else if j.numOfFileScanned > 0 then ("clean", "")
    else ("error", "")
  | none =>
    if tmFallbackInfected output then ("infected", "")
    else if exitCode = 0 then ("clean", "")
    else ("error", "")

/-- The on-demand result mapping exactly as the specification sentence of
claim C8 words it (the infected branch conditioned on `numOfFileInfected > 0`
alone).  Stated for comparison with `parseManualScanOutput`. -/
def tmSpecClaimedMapping (json : Option TMScanJson) (output : String)
    (exitCode : Int) : String × String :=
  match json with
  | some j =>
    if j.numOfFileSkipped > 0 ∧ j.numOfFileScanned = 0 then ("error", "")
    else if j.numOfFileInfected > 0 then
      ("infected",
       match j.infectedFiles with
       | [] => ""
       | f :: _ => f.malwareName)
    else if j.numOfFileScanned > 0 then ("clean", "")
    else ("error", "")
  | none =>
    if tmFallbackInfected output then ("infected", "")
    else if exitCode = 0 then ("clean", "")
    else ("error", "")

/-- The C8 mapping as amended: identical to the claimed mapping except that
the infected branch also fires when `infectedFiles` is non-empty. -/
def tmAmendedMapping (json : Option TMScanJson) (output : String)
    (exitCode : Int) : String × String :=
  match json with
  | some j =>
    if j.numOfFileSkipped > 0 ∧ j.numOfFileScanned = 0 then ("error", "")
    else if j.numOfFileInfected > 0 ∨ j.infectedFiles ≠ [] then
      ("infected",
       match j.infectedFiles with
       | [] => ""
       | f :: _ => f.malwareName)
    else if j.numOfFileScanned > 0 then ("clean", "")
    else ("error", "")
  | none =>
    if tmFallbackInfected output then ("infected", "")
    else if exitCode = 0 then ("clean", "")
    else ("error", "")

/-! ## The scan HTTP handler (`internal/api/handlers.go`, `API.handleScan`)

The handler's branching structure as a function of the outcomes of its
effectful steps: `r.ParseMultipartForm(a.config.MaxFileSize)`,
`r.FormFile("file")`, `os.Create`, `io.Copy`, and `a.scanner.Scan`.  The
embedding records the HTTP status written and whether the orchestrator
(`scanner.Scan`) was invoked. -/

/-- Outcomes of the effectful steps of one `handleScan` request. -/
structure HandleEnv where
  parseFormOk : Bool
  formFileOk : Bool
  createOk : Bool
  copyOk : Bool
  scanOutcome : Except String (String × String)

/-- The observable result of `handleScan`: HTTP status code and whether
`scanner.Scan` ran. -/
structure HandleResult where
  httpStatus : Nat
  scanInvoked : Bool
deriving DecidableEq

/-- `API.handleScan` (handlers.go:111–176): a `ParseMultipartForm` failure
(the oversize/invalid-form case) answers 400 with "File too large or invalid
form"; a missing `file` field answers 400; create/copy failures answer 500;
an orchestrator error answers 500; otherwise 200. -/
def handleScan (env : HandleEnv) : HandleResult :=
  if env.parseFormOk = false then { httpStatus := 400, scanInvoked := false }
  else if env.formFileOk = false then { httpStatus := 400, scanInvoked := false }
  else if env.createOk = false then { httpStatus := 500, scanInvoked := false }
  else if env.copyOk = false then { httpStatus := 500, scanInvoked := false }
  else
    match env.scanOutcome with
    | Except.error _ => { httpStatus := 500, scanInvoked := true }
    | Except.ok _ => { httpStatus := 200, scanInvoked := true }

/-- A cache-probe oracle that never observes an entry. -/
def probeNone : Nat → Option Detection := fun _ => none

/-- The C1 failing input: the driver's on-demand scan returns `StatusError`
(e.g. `clamdscan` exit code ≥ 2 with no FOUND line) with a nil Go error, and
the shared cache never receives a detection for the path during the wait
budget (defaults: base 500 ms, 10 ms/MiB, size 0). -/
def envC1 : ScanEnv :=
  { manual := Except.ok { Status := "error", Signature := "" },
    probe := probeNone,
    cfg := { RTSCacheBaseDelay := 500, RTSCacheDelayPerMB := 10 },
    size := 0 }

/-- Witness for C2: defaults (base 500 ms, 10 ms/MiB), a 3 MiB file
(`maxWait = 530 ms`), a failed on-demand call, and a cache that never holds
an entry for the path: the call returns the error. -/
def envC2W : ScanEnv :=
  { manual := Except.error (),
    probe := probeNone,
    cfg := { RTSCacheBaseDelay := 500, RTSCacheDelayPerMB := 10 },
    size := 3145728 }

/-- Witness for C3: the driver reports `infected` with signature `"Sig-A"`
while the cache holds an infected entry with the different signature
`"Other-Sig"` for the same path; the on-demand signature is returned and the
cache is never probed. -/
def detOther : Detection :=
  { FilePath := "/tmp/av-scanner/u.bin", Status := "infected",
    Signature := "Other-Sig", Raw := "raw", Timestamp := 0 }

def envC3W : ScanEnv :=
  { manual := Except.ok { Status := "infected", Signature := "Sig-A" },
    probe := fun _ => some detOther,
    cfg := { RTSCacheBaseDelay := 500, RTSCacheDelayPerMB := 10 },
    size := 0 }

def detC7 : Detection :=
  { FilePath := "/tmp/av-scanner/a.bin", Status := "infected",
    Signature := "Sig", Raw := "raw", Timestamp := 0 }

def cacheC7 : CacheState :=
  cacheAdd 0 "/tmp/av-scanner/a.bin" detC7 (NewDetectionCache 10000)

/-- The C8 divergence input: one file scanned, none skipped,
`numOfFileInfected = 0`, but a non-empty `infectedFiles` array. -/
def tmJsonC8 : TMScanJson :=
  { numOfFileScanned := 1, numOfFileSkipped := 0, numOfFileInfected := 0,
    infectedFiles := [{ fileName := "f", malwareName := "X" }] }

/-- The C9 failing-parse input: `ParseMultipartForm` (called with the
`MaxFileSize` limit) fails; later steps would succeed. -/
def envC9 : HandleEnv :=
  { parseFormOk := false, formFileOk := true, createOk := true,
    copyOk := true, scanOutcome := Except.ok ("clean", "") }

/-- Witness for the amended C9 at a concrete environment. -/
def envC9W : HandleEnv :=
  { parseFormOk := false, formFileOk := false, createOk := true,
    copyOk := true, scanOutcome := Except.error "orchestrator failed" }

def tmLineC5 : String := "(0000-0000-0000, /tmp/av-scanner/x.txt) virus found: 2"

/-- The line family of spec property P2 for the Trend Micro parser:
`(xxx, <p>) virus found: 2`. -/
def tmClaimLine (p : List Char) : List Char :=
  "(xxx, ".toList ++ p ++ ") virus found: 2".toList

/-- Whether a line ends with the literal `FOUND` — the necessary condition
imposed by the `FOUND$` tail of `clamavFoundRegex`. -/
def endsWithFOUND (s : String) : Bool :=
  "FOUND".toList.isSuffixOf s.toList

/-- A ClamAV quarantine log line of the form `<path>: moved to '<dest>'`. -/
def movedLineC4 : String := "/t/abc.com: moved to '/q/abc.com'"

/-- A ClamAV FOUND log line with the bracketed timestamp prefix. -/
def tsLineC4 : String := "[2024-01-01 10:00:00] /t/abc.com: Sig FOUND"

/-- A plain ClamAV FOUND log line. -/
def foundLineC4 : String := "/tmp/av-scanner/abc.com: Eicar-Test-Signature FOUND"

/-! ## Lemmas about the RTS wait loop -/

theorem rtsLoopAux_none (probe : Nat → Option Detection) :
    ∀ (fuel i : Nat), (∀ k, i ≤ k → k < i + fuel → ¬ InfectedHit (probe k)) →
    (rtsLoopAux probe i fuel).1 = none := by
  intro fuel
  induction fuel with
  | zero => intro i _; rfl
  | succ n ih =>
    intro i h
    unfold rtsLoopAux
    cases hp : probe i with
    | none => exact ih (i + 1) (fun k hk1 hk2 => h k (by omega) (by omega))
    | some det =>
      have hni : ¬ det.Status = "infected" := by
        intro hst
        exact h i (by omega) (by omega) ⟨det, hp, hst⟩
      simp only [hni, if_false]
      exact ih (i + 1) (fun k hk1 hk2 => h k (by omega) (by omega))

theorem rtsLoopAux_first_hit (probe : Nat → Option Detection) :
    ∀ (fuel i k : Nat) (d : Detection), i ≤ k → k < i + fuel →
    probe k = some d → d.Status = "infected" →
    (∀ j, i ≤ j → j < k → ¬ InfectedHit (probe j)) →
    (rtsLoopAux probe i fuel).1 = some d := by
  intro fuel
  induction fuel with
  | zero => intro i k d _ hk; omega
  | succ n ih =>
    intro i k d hik hk hp hst hmin
    unfold rtsLoopAux
    rcases Nat.eq_or_lt_of_le hik with heq | hlt
    · subst heq
      rw [hp]
      simp [hst]
    · have hnot : ¬ InfectedHit (probe i) := hmin i (by omega) hlt
      have harg : ∀ j, i + 1 ≤ j → j < k → ¬ InfectedHit (probe j) :=
        fun j hj1 hj2 => hmin j (by omega) hj2
      cases hpi : probe i with
      | none =>
        exact ih (i + 1) k d (by omega) (by omega) hp hst harg
      | some det =>
        have hni : ¬ det.Status = "infected" := fun hs => hnot ⟨det, hpi, hs⟩
        simp only [hni, if_false]
        exact ih (i + 1) k d (by omega) (by omega) hp hst harg

theorem lt_pollIterations_iff (maxWait k : Nat) :
    k < pollIterations maxWait ↔ k * retryDelay < maxWait := by
  unfold pollIterations retryDelay
  rw [Nat.lt_iff_add_one_le, Nat.le_div_iff_mul_le (by norm_num : 0 < 20)]
  omega

/-! ## Claims C1, C2, C3 — the orchestrator -/

/-- Claim C1 (code bug): on the exhaustion exit path, `Scanner.Scan` returns
its error at scanner.go:149 before ever reaching the `s.deleteFile` call at
scanner.go:154, so zero removal attempts are made on the materialized file —
the claim (and spec P8 / the FINALIZING rule) requires exactly one on every
exit path. -/
theorem scan_exhaustion_skips_delete :
    (Scan envC1).deletes = 0 ∧ (Scan envC1).result = Except.error scanFailMsg := by
  decide

/-- Claim C2: when the on-demand scan yields no decisive verdict,
`Scanner.Scan` polls the cache once per `retryDelay = 20 ms` tick for the
budget `maxWait = RTSCacheBaseDelay + (size/1 MiB)·RTSCacheDelayPerMB`:
(i) if no poll within the budget observes an infected entry, the call returns
the error `scanFailMsg`; (ii) the first poll that observes an infected entry
makes the call return verdict `"infected"` with that entry's signature. -/
theorem scan_rts_fallback_behavior (env : ScanEnv)
    (hnd : manualDecisive env.manual = none) :
    ((∀ k, k * retryDelay < maxWaitFor env.cfg env.size →
        ¬ InfectedHit (env.probe k)) →
      (Scan env).result = Except.error scanFailMsg) ∧
    (∀ k d, k * retryDelay < maxWaitFor env.cfg env.size →
      env.probe k = some d → d.Status = "infected" →
      (∀ j, j < k → ¬ InfectedHit (env.probe j)) →
      (Scan env).result = Except.ok ("infected", d.Signature)) := by
  constructor
  · intro h
    have hl : (rtsLoop env.probe (maxWaitFor env.cfg env.size)).1 = none := by
      apply rtsLoopAux_none
      intro k _ hk
      exact h k ((lt_pollIterations_iff _ _).1 (by omega))
    simp [Scan, hnd, rtsLoop] at hl ⊢
    rw [hl]
  · intro k d hk hp hst hmin
    have hl : (rtsLoop env.probe (maxWaitFor env.cfg env.size)).1 = some d := by
      apply rtsLoopAux_first_hit env.probe _ 0 k d (by omega)
        (by have := (lt_pollIterations_iff (maxWaitFor env.cfg env.size) k).2 hk; omega)
        hp hst
      intro j _ hj
      exact hmin j hj
    simp [Scan, hnd, rtsLoop] at hl ⊢
    rw [hl]

theorem scan_rts_fallback_witness :
    (Scan envC2W).result = Except.error scanFailMsg :=
  (scan_rts_fallback_behavior envC2W rfl).1
    (fun k _ => by simp [envC2W, probeNone, InfectedHit])

/-- Claim C3: when the on-demand result is decisive (`clean` or `infected`),
`Scanner.Scan` adopts its status and signature verbatim, performs one deletion
attempt, and issues zero cache probes — regardless of what the probe oracle
(the cache) would have answered. -/
theorem scan_fast_path_ignores_cache (env : ScanEnv) (r : ManualResult)
    (hm : env.manual = Except.ok r)
    (hdec : r.Status = "clean" ∨ r.Status = "infected") :
    Scan env =
      { result := Except.ok (r.Status, r.Signature), deletes := 1, probes := 0 } := by
  unfold Scan manualDecisive
  rw [hm]
  simp [hdec]

theorem scan_fast_path_witness :
    Scan envC3W =
      { result := Except.ok ("infected", "Sig-A"), deletes := 1, probes := 0 } :=
  scan_fast_path_ignores_cache envC3W
    { Status := "infected", Signature := "Sig-A" } rfl (Or.inr rfl)

/-! ## Claims C6, C7 — the detection cache -/

/-- Claim C6 (code bug): the first `DetectionCache.Stop` succeeds, but a
second `Stop` executes `close` on the already-closed `stopCh` channel, which
panics in Go (embedded as `none`) — the claim requires an idempotent no-op. -/
theorem cache_stop_twice_panics :
    (cacheStop (NewDetectionCache 0)).isSome = true ∧
    (cacheStop (NewDetectionCache 0)).bind cacheStop = none := by
  decide

/-- Counterexample to claim C7: with a configured TTL of 10 s, an entry added
at t = 0 is still returned by the cache at t = 20 s — older than TTL —
because the sweeper's first firing is only at the fixed 30 s mark
(`DefaultCleanupInterval`), which is also not half of this TTL. -/
theorem cache_ttl_counterexample :
    cachePeek "/tmp/av-scanner/a.bin" cacheC7 = some detC7 ∧
    cacheC7.ttl = 10000 ∧
    cacheC7.ttl < 20000 - detC7.Timestamp ∧
    sweepTime 0 = 30000 ∧
    20000 < sweepTime 0 ∧
    2 * DefaultCleanupInterval ≠ cacheC7.ttl := by
  decide

/-- Claim C7 as amended: a cleanup sweep removes exactly the entries whose
age exceeds the configured TTL, and the sweep cadence is the fixed constant
`DefaultCleanupInterval = 30 s` — equal to half of the default 60 s TTL but
independent of the configured TTL; between sweeps an entry may exceed TTL in
age. -/
theorem cache_cleanup_amended :
    (∀ (now : Nat) (c : CacheState) (e : String × Detection),
       e ∈ (cacheCleanup now c).detections ↔
         e ∈ c.detections ∧ now - e.2.Timestamp ≤ c.ttl) ∧
    DefaultCleanupInterval = 30000 ∧
    DefaultTTL = 2 * DefaultCleanupInterval := by
  refine ⟨?_, rfl, rfl⟩
  intro now c e
  simp [cacheCleanup, List.mem_filter]

/-! ## Claim C8 — the Trend Micro on-demand mapping -/

/-- Counterexample to claim C8: the source's infected branch also fires on
`len(infectedFiles) > 0`, so on this input the code returns
`("infected", "X")` while the claimed mapping (`numOfFileInfected > 0` alone)
would return `("clean", "")`. -/
theorem tm_manual_mapping_counterexample :
    parseManualScanOutput (some tmJsonC8) "" 0 = ("infected", "X") ∧
    tmSpecClaimedMapping (some tmJsonC8) "" 0 = ("clean", "") ∧
    parseManualScanOutput (some tmJsonC8) "" 0 ≠
      tmSpecClaimedMapping (some tmJsonC8) "" 0 := by
  decide

/-- Claim C8 as amended: the mapping is as claimed except that the infected
branch fires when `numOfFileInfected > 0` **or** `infectedFiles` is
non-empty, with the signature being the first entry's `malwareName` (empty
when the array is empty); the skipped/clean/error branches and the non-JSON
fallback are exactly as claimed. -/
theorem tm_manual_mapping_amended (json : Option TMScanJson) (output : String)
    (exitCode : Int) :
    parseManualScanOutput json output exitCode =
      tmAmendedMapping json output exitCode := by
  cases json with
  | none => rfl
  | some j =>
    rcases j with ⟨ns, nk, ni, files⟩
    cases files <;>
      simp [parseManualScanOutput, tmAmendedMapping]

/-! ## Claim C9 — the scan endpoint's oversize handling -/

/-- Counterexample to claim C9: the handler's rejection of the
oversize/invalid multipart form answers HTTP 400 ("File too large or invalid
form"), not the claimed 413; the orchestrator is indeed not invoked. -/
theorem handle_scan_counterexample :
    handleScan envC9 = { httpStatus := 400, scanInvoked := false } ∧
    (handleScan envC9).httpStatus ≠ 413 := by
  decide

/-- Claim C9 as amended: a request rejected by `ParseMultipartForm` — the
handler's oversize/invalid-form check — is answered with HTTP 400 without
invoking the scan orchestrator, and no `handleScan` path at all produces the
claimed 413. -/
theorem handle_scan_amended (env : HandleEnv) :
    (env.parseFormOk = false →
      handleScan env = { httpStatus := 400, scanInvoked := false }) ∧
    (handleScan env).httpStatus ≠ 413 := by
  rcases env with ⟨pf, ff, co, cp, so⟩
  constructor
  · intro h
    subst h
    rfl
  · cases pf <;> cases ff <;> cases co <;> cases cp <;> cases so <;>
      simp [handleScan]

theorem handle_scan_amended_witness :
    handleScan envC9W = { httpStatus := 400, scanInvoked := false } ∧
    (handleScan envC9W).httpStatus ≠ 413 :=
  ⟨(handle_scan_amended envC9W).1 rfl, (handle_scan_amended envC9W).2⟩

/-! ## Claim C5 — the Trend Micro log parser -/

/-- Counterexample to claim C5: the parser maps the virus-found line to a
detection whose `Signature` is the literal `"virus"`, not the claimed empty
string. -/
theorem tm_parser_counterexample :
    (tmProcessLogLine tmLineC5).map Detection.Signature = some "virus" ∧
    (tmProcessLogLine tmLineC5).map Detection.Signature ≠ some "" := by
  decide

/-! ## Lemmas about the regex embeddings -/

theorem takeWhile_middle (f : Char → Bool) (c : Char) (r : List Char) :
    ∀ (l : List Char), (∀ a ∈ l, f a = true) → f c = false →
    (l ++ c :: r).takeWhile f = l := by
  intro l
  induction l with
  | nil => intro _ hc; simp [List.takeWhile_cons, hc]
  | cons a t ih =>
    intro hl hc
    have ha : f a = true := hl a (by simp)
    simp only [List.cons_append, List.takeWhile_cons, ha, if_true]
    rw [ih (fun x hx => hl x (by simp [hx])) hc]

theorem dropWhile_middle (f : Char → Bool) (c : Char) (r : List Char) :
    ∀ (l : List Char), (∀ a ∈ l, f a = true) → f c = false →
    (l ++ c :: r).dropWhile f = c :: r := by
  intro l
  induction l with
  | nil => intro _ hc; simp [List.dropWhile_cons, hc]
  | cons a t ih =>
    intro hl hc
    have ha : f a = true := hl a (by simp)
    simp only [List.cons_append, List.dropWhile_cons, ha, if_true]
    exact ih (fun x hx => hl x (by simp [hx])) hc

theorem firstSome_eq_some {α β : Type} (f : α → Option β) :
    ∀ (l : List α) (b : β), firstSome f l = some b → ∃ a ∈ l, f a = some b := by
  intro l
  induction l with
  | nil => intro b h; simp [firstSome] at h
  | cons a t ih =>
    intro b h
    unfold firstSome at h
    cases hfa : f a with
    | some v =>
      rw [hfa] at h
      simp only [Option.some.injEq] at h
      exact ⟨a, by simp, by rw [hfa, h]⟩
    | none =>
      rw [hfa] at h
      obtain ⟨x, hx, hfx⟩ := ih b h
      exact ⟨x, by simp [hx], hfx⟩

theorem listSplits_append :
    ∀ (s : List Char) (p : List Char × List Char),
      p ∈ listSplits s → s = p.1 ++ p.2 := by
  intro s
  induction s with
  | nil =>
    intro p hp
    simp [listSplits] at hp
    simp [hp]
  | cons c t ih =>
    intro p hp
    simp only [listSplits, List.mem_cons, List.mem_map] at hp
    rcases hp with rfl | ⟨q, hq, rfl⟩
    · rfl
    · simpa using congrArg (fun l => c :: l) (ih q hq)

theorem clamavGapFound_suffix (v : List Char) (h : clamavGapFound v = true) :
    "FOUND".toList <:+ v := by
  unfold clamavGapFound at h
  simp only [Bool.and_eq_true, decide_eq_true_eq] at h
  refine ⟨v.take (v.takeWhile isReSpace).length, ?_⟩
  rw [← h.2]
  exact List.take_append_drop _ v

theorem clamavTail2_suffix (g1 u : List Char) (r : List Char × List Char)
    (h : clamavTail2 g1 u = some r) : "FOUND".toList <:+ u := by
  obtain ⟨p, hp, hf⟩ := firstSome_eq_some _ _ _ h
  rw [List.mem_reverse] at hp
  have hu := listSplits_append u p hp
  have hf2 :
      (if (decide (p.1 ≠ []) && decide ('\n' ∉ p.1) && clamavGapFound p.2) = true
        then some (g1, p.1) else none) = some r := hf
  by_cases hcond :
      (decide (p.1 ≠ []) && decide ('\n' ∉ p.1) && clamavGapFound p.2) = true
  · have hgap : clamavGapFound p.2 = true := by
      simp only [Bool.and_eq_true] at hcond
      exact hcond.2
    rw [hu]
    exact (clamavGapFound_suffix _ hgap).trans (List.suffix_append p.1 p.2)
  · rw [if_neg hcond] at hf2
    exact absurd hf2 (by simp)

theorem clamavTail_suffix (g1 t : List Char) (r : List Char × List Char)
    (h : clamavTail g1 t = some r) : "FOUND".toList <:+ t := by
  obtain ⟨k, _, h2⟩ := firstSome_eq_some _ _ _ h
  exact (clamavTail2_suffix g1 (t.drop k) r h2).trans (List.drop_suffix k t)

theorem clamavMatchAt_suffix (s : List Char) (r : List Char × List Char)
    (h : clamavMatchAt s = some r) : "FOUND".toList <:+ s := by
  obtain ⟨p, hp, hf⟩ := firstSome_eq_some _ _ _ h
  rw [List.mem_reverse] at hp
  have hu := listSplits_append s p hp
  rcases p with ⟨p1, p2⟩
  cases p2 with
  | nil => simp at hf
  | cons c t =>
    have hf2 :
        (if c = ':' ∧ p1 ≠ [] ∧ '\n' ∉ p1 then clamavTail p1 t else none) =
          some r := hf
    by_cases hcond : c = ':' ∧ p1 ≠ [] ∧ '\n' ∉ p1
    · rw [if_pos hcond] at hf2
      have hsub := clamavTail_suffix p1 t r hf2
      rw [hu]
      have h1 : t <:+ c :: t := ⟨[c], rfl⟩
      exact hsub.trans (h1.trans (List.suffix_append p1 (c :: t)))
    · rw [if_neg hcond] at hf2
      exact absurd hf2 (by simp)

theorem clamavFindMatch_suffix :
    ∀ (s : List Char) (r : List Char × List Char),
      clamavFindMatch s = some r → "FOUND".toList <:+ s := by
  intro s
  induction s with
  | nil => intro r h; simp [clamavFindMatch] at h
  | cons c t ih =>
    intro r h
    unfold clamavFindMatch at h
    cases hm : clamavMatchAt (c :: t) with
    | some v => exact clamavMatchAt_suffix _ _ hm
    | none =>
      rw [hm] at h
      obtain ⟨w, hw⟩ := ih r h
      exact ⟨c :: w, by rw [← hw]; rfl⟩

/-! ## Claim C4 — the ClamAV log parser -/

/-- Counterexample to claim C4: the current `processLogLine` recognizes only
the FOUND form, so (i) the quarantine line `<path>: moved to '<dest>'`
produces no detection at all, and (ii) with the bracketed timestamp prefix
prepended, the greedy `(.+)` of `clamavFoundRegex` absorbs the prefix into
the captured path, so the detection is recorded for the wrong path rather
than for `/t/abc.com`. -/
theorem clamav_parser_counterexample :
    clamavProcessLogLine movedLineC4 = none ∧
    (clamavProcessLogLine tsLineC4).map Detection.FilePath =
      some "[2024-01-01 10:00:00] /t/abc.com" := by
  decide

/-- Claim C4 as amended: the parser caches a detection only for lines
matching `(.+):\s+(.+)\s+FOUND$` — any line not ending in `FOUND`, in
particular every `moved to` quarantine line, yields none — and a FOUND line
with the bracketed timestamp prefix is parsed with the prefix left inside
the captured path. -/
theorem clamav_parser_amended :
    (∀ s : String, endsWithFOUND s = false → clamavProcessLogLine s = none) ∧
    clamavProcessLogLine foundLineC4 =
      some { FilePath := "/tmp/av-scanner/abc.com", Status := "infected",
             Signature := "Eicar-Test-Signature", Raw := foundLineC4,
             Timestamp := 0 } ∧
    (clamavProcessLogLine tsLineC4).map Detection.FilePath ≠
      some "/t/abc.com" := by
  refine ⟨?_, by decide, by decide⟩
  intro s h
  cases hm : clamavFindMatch s.toList with
  | none =>
    unfold clamavProcessLogLine
    rw [hm]
  | some r =>
    exfalso
    have hs := clamavFindMatch_suffix s.toList r hm
    have ht : endsWithFOUND s = true := by
      unfold endsWithFOUND
      exact List.isSuffixOf_iff_suffix.2 hs
    rw [h] at ht
    exact Bool.noConfusion ht

/-- Witness for the amended C4, applying its universally quantified part to a
concrete `<path>: OK` line (which does not end in `FOUND`). -/
theorem clamav_parser_amended_witness :
    endsWithFOUND "/tmp/av-scanner/xyz.bin: OK" = false ∧
    clamavProcessLogLine "/tmp/av-scanner/xyz.bin: OK" = none :=
  ⟨by decide, clamav_parser_amended.1 "/tmp/av-scanner/xyz.bin: OK" (by decide)⟩

/-! ## Claim C10 — stdout precedence in the ClamAV on-demand mapping -/

/-- Claim C10: whenever (trimmed) stdout matches `clamavFoundRegex`, the
status computed by `ClamAVDriver.ManualScan` is infected with the captured
signature, for every exit code — the stdout match takes precedence over the
exit-code mapping, including for exit codes ≥ 2. -/
theorem clamav_stdout_precedence (exitCode : Int) (stdoutRaw : String)
    (r : List Char × List Char)
    (h : clamavFindMatch (goTrimSpaceL stdoutRaw.toList) = some r) :
    clamavManualScanStatus exitCode stdoutRaw = ("infected", String.mk r.2) := by
  unfold clamavManualScanStatus
  rw [h]

/-- Witness for C10: exit code 2 (the error range) with a FOUND line on
stdout still yields infected with the captured signature. -/
theorem clamav_stdout_precedence_witness :
    clamavManualScanStatus 2 "/t/f.bin: Eicar-Test-Signature FOUND" =
      ("infected", "Eicar-Test-Signature") := by
  have h : clamavFindMatch
      (goTrimSpaceL ("/t/f.bin: Eicar-Test-Signature FOUND").toList) =
      some ("/t/f.bin".toList, "Eicar-Test-Signature".toList) := by decide
  exact clamav_stdout_precedence 2 _ _ h

/-! ## Claim C5 — the Trend Micro parser on the P2 line family -/

theorem tmMatchAt_claim_line (hd : Char) (tl : List Char)
    (hpar : ')' ∉ hd :: tl) (hsp : isGoSpace hd = false) :
    tmMatchAt ('(' :: 'x' :: 'x' :: 'x' :: ',' :: ' ' ::
        ((hd :: tl) ++ ')' :: " virus found: 2".toList)) = some (hd :: tl) := by
  have hre : isReSpace hd = false := by
    unfold isGoSpace at hsp
    exact (Bool.or_eq_false_iff.mp hsp).1
  have hne : ∀ a ∈ hd :: tl, (a != ')') = true := by
    intro a ha
    simp only [bne_iff_ne, ne_eq]
    exact fun he => hpar (he ▸ ha)
  have hsp1 : isReSpace ' ' = true := by decide
  have htk : List.takeWhile (fun c => c != ',')
      ('x' :: 'x' :: 'x' :: ',' :: ' ' ::
        ((hd :: tl) ++ ')' :: " virus found: 2".toList)) = ['x', 'x', 'x'] :=
    takeWhile_middle _ ','
      (' ' :: ((hd :: tl) ++ ')' :: " virus found: 2".toList))
      ['x', 'x', 'x'] (by decide) (by decide)
  have hdp : List.dropWhile (fun c => c != ',')
      ('x' :: 'x' :: 'x' :: ',' :: ' ' ::
        ((hd :: tl) ++ ')' :: " virus found: 2".toList)) =
      ',' :: ' ' :: ((hd :: tl) ++ ')' :: " virus found: 2".toList) :=
    dropWhile_middle _ ','
      (' ' :: ((hd :: tl) ++ ')' :: " virus found: 2".toList))
      ['x', 'x', 'x'] (by decide) (by decide)
  have hws : List.takeWhile isReSpace
      (' ' :: ((hd :: tl) ++ ')' :: " virus found: 2".toList)) = [' '] := by
    simp [List.takeWhile_cons, hsp1, hre]
  have hr3 : List.dropWhile isReSpace
      (' ' :: ((hd :: tl) ++ ')' :: " virus found: 2".toList)) =
      (hd :: tl) ++ ')' :: " virus found: 2".toList := by
    simp [List.dropWhile_cons, hsp1, hre]
  have hbody : List.takeWhile (fun c => c != ')')
      ((hd :: tl) ++ ')' :: " virus found: 2".toList) = hd :: tl :=
    takeWhile_middle _ ')' (" virus found: 2".toList) (hd :: tl) hne (by decide)
  have hdrop2 : List.dropWhile (fun c => c != ')')
      ((hd :: tl) ++ ')' :: " virus found: 2".toList) =
      ')' :: " virus found: 2".toList :=
    dropWhile_middle _ ')' (" virus found: 2".toList) (hd :: tl) hne (by decide)
  have hpre : (("virus found:".toList).isPrefixOf
      ((" virus found: 2".toList).dropWhile isReSpace)) = true := by decide
  have htcp : tmCloseParen (hd :: tl) (')' :: " virus found: 2".toList) =
      some (hd :: tl) := by
    simp [tmCloseParen]
    exact List.isPrefixOf_iff_prefix.mp (by decide)
  simp only [tmMatchAt, htk, hdp, hws, hr3, hbody, hdrop2, List.reverse_cons,
    List.reverse_nil, List.nil_append]
  exact htcp

/-- Claim C5 as amended: for every path `p` (no `)`, non-empty, not starting
with whitespace), the parser maps `(xxx, <p>) virus found: 2` to an infected
detection whose `FilePath` is `strings.TrimSpace(p)` — so interior spaces are
preserved but trailing whitespace is trimmed — and whose `Signature` is the
literal `"virus"`, not the empty string. -/
theorem tm_parser_amended (hd : Char) (tl : List Char)
    (hpar : ')' ∉ hd :: tl) (hsp : isGoSpace hd = false) :
    tmProcessLogLine (String.mk (tmClaimLine (hd :: tl))) =
      some { FilePath := String.mk (goTrimSpaceL (hd :: tl)),
             Status := "infected", Signature := "virus",
             Raw := String.mk (tmClaimLine (hd :: tl)), Timestamp := 0 } := by
  have hmat := tmMatchAt_claim_line hd tl hpar hsp
  have hcap : tmFindCapture (String.mk (tmClaimLine (hd :: tl))).toList =
      some (hd :: tl) := by
    have h0 : (String.mk (tmClaimLine (hd :: tl))).toList =
        '(' :: 'x' :: 'x' :: 'x' :: ',' :: ' ' ::
          ((hd :: tl) ++ ')' :: " virus found: 2".toList) := rfl
    rw [h0]
    unfold tmFindCapture
    rw [hmat]
  unfold tmProcessLogLine
  rw [hcap]

/-- Witness for the amended C5 at the concrete path `/tmp/a b.txt` (interior
space preserved; `TrimSpace` is the identity on it). -/
theorem tm_parser_amended_witness :
    tmProcessLogLine (String.mk (tmClaimLine ("/tmp/a b.txt".toList))) =
      some { FilePath := String.mk (goTrimSpaceL ("/tmp/a b.txt".toList)),
             Status := "infected", Signature := "virus",
             Raw := String.mk (tmClaimLine ("/tmp/a b.txt".toList)),
             Timestamp := 0 } :=
  tm_parser_amended '/' "tmp/a b.txt".toList (by decide) (by decide)
